import Mathlib

/-!
Shallow embedding of the `S3Vector` store adapter (src/s3-vector.ts, with the
shared shapes of src/types.ts).  JavaScript numbers are modelled as rationals
(`ℚ`), JavaScript `undefined`-able values as `Option`, thrown errors as the
`Except` error component, and the sequence of remote AWS calls issued by an
operation as an explicit trace list.  Each definition is translated from the
TypeScript source; source line references are given in the doc comments.
-/

namespace S3VectorSpec

/-- A metadata value: `string | number | boolean | null` (types.ts, `VectorMetadata`). -/
inductive MetaValue where
  | str (s : String) : MetaValue
  | num (q : ℚ) : MetaValue
  | bool (b : Bool) : MetaValue
  | null : MetaValue
deriving DecidableEq

/-- `Record<string, string | number | boolean | null>` modelled as an association list. -/
abbrev VectorMetadata := List (String × MetaValue)

/-- One record of a `PutVectorsCommand` request: `{ key, data: { float32 }, metadata }`
(s3-vector.ts lines 251-255 and 427-433).  In `updateVector` the `metadata` field is
passed through without a default and may be absent, hence `Option`. -/
structure PutRecord where
  key : String
  data : List ℚ
  metadata : Option VectorMetadata
deriving DecidableEq

/-- Errors.  `remote` is a failure produced by the AWS SDK client (only its
`message` is observable to the adapter); `store` is a `VectorStoreError`
(types.ts lines 139-148) with its `message`, `code` and optional `details`
payload, which may itself be an error (the adapter attaches caught errors
there). -/
inductive Err where
  | remote (message : String) : Err
  | store (message : String) (code : String) (details : Option Err) : Err

/-- `error instanceof Error ? error.message : String(error)`: both remote SDK
failures and `VectorStoreError`s are `Error` instances, so the message field is
used. -/
def Err.msg : Err → String
  | .remote m => m
  | .store m _ _ => m

/-- The `code` field of a `VectorStoreError`; a bare remote failure has none. -/
def Err.codeOf : Err → Option String
  | .remote _ => none
  | .store _ c _ => some c

/-- The `details` field of a `VectorStoreError`; a bare remote failure has none. -/
def Err.detailsOf : Err → Option Err
  | .remote _ => none
  | .store _ _ d => d

/-- A remote call issued through `this.client.send`, as recorded in an
operation's trace.  Only the write-side commands matter for the claims. -/
inductive RemoteCall where
  | putVectors (indexName : String) (records : List PutRecord) : RemoteCall
  | deleteVectors (indexName : String) (keys : List String) : RemoteCall
deriving DecidableEq

/-! ### Batch upsert (s3-vector.ts lines 236-276) -/

/-- `const BATCH_SIZE = 10` (line 237). -/
def BATCH_SIZE : Nat := 10

/-- `params.ids?.[i + index] || `vector_${i + index}`` (line 252): the supplied
id at the overall position is used when it exists and is truthy (a present but
empty string is falsy in JavaScript and falls back to the generated key). -/
def vectorKey (ids : Option (List String)) (pos : Nat) : String :=
  match ids.bind (fun l => l.get? pos) with
  | some s => if s = "" then "vector_" ++ toString pos else s
  | none => "vector_" ++ toString pos

/-- `params.metadata?.[i + index] || {}` (line 254): the metadata entry at the
overall position, defaulting to the empty object. -/
def vectorMeta (meta : Option (List VectorMetadata)) (pos : Nat) : VectorMetadata :=
  (meta.bind (fun l => l.get? pos)).getD []

/-- The record built for the embedding at overall position `pos` (lines 251-255). -/
def upsertRecord (ids : Option (List String)) (meta : Option (List VectorMetadata))
    (pos : Nat) (v : List ℚ) : PutRecord :=
  { key := vectorKey ids pos, data := v, metadata := some (vectorMeta meta pos) }

/-- Number of iterations of the loop `for (let i = 0; i < n; i += c)`,
i.e. `⌈n / c⌉` for a positive step `c`. -/
def numBatches (c n : Nat) : Nat := (n + c - 1) / c

/-- The records of the batch starting at offset `i`:
`params.vectors.slice(i, i + BATCH_SIZE).map((vector, index) => ...)`
(lines 245 and 251-255); the key/metadata positions are `i + index`. -/
def upsertBatch (ids : Option (List String)) (meta : Option (List VectorMetadata))
    (vectors : List (List ℚ)) (c i : Nat) : List PutRecord :=
  ((vectors.drop i).take c).mapIdx (fun index v => upsertRecord ids meta (i + index) v)

/-- The sequence of `PutVectors` request bodies issued by the upsert loop
(lines 241-257): iteration `k` of `for (let i = 0; i < vectors.length; i += c)`
handles the slice starting at `i = c * k`. -/
def upsertRequests (c : Nat) (ids : Option (List String))
    (meta : Option (List VectorMetadata)) (vectors : List (List ℚ)) :
    List (List PutRecord) :=
  (List.range (numBatches c vectors.length)).map
    (fun k => upsertBatch ids meta vectors c (c * k))

/-- Reference flat form: the record list for `vectors` where the record of the
j-th element gets overall position `b + j`.  Used to relate the chunked
requests to the input sequence. -/
def recordsFrom (ids : Option (List String)) (meta : Option (List VectorMetadata)) :
    Nat → List (List ℚ) → List PutRecord
  | _, [] => []
  | b, v :: tl => upsertRecord ids meta b v :: recordsFrom ids meta (b + 1) tl

/-- The message of the `VectorStoreError` raised on an upsert failure
(lines 260 and 271): names the index and appends the caught error's message. -/
def upsertErrMsg (indexName : String) (e : Err) : String :=
  "Failed to upsert vectors to index " ++ indexName ++ ": " ++ e.msg

/-- The body of the upsert loop (lines 241-265): chunk requests are sent
sequentially; `remote k` is the outcome the client returns for the k-th send.
A failing send is wrapped by the inner `catch` (lines 258-264) into an
`upsert_failed` `VectorStoreError` with the caught error as `details`, which
aborts the loop; the trace records every send that was issued, the failing one
included. -/
def runChunks (remote : Nat → Except Err Unit) (indexName : String) :
    Nat → List (List PutRecord) → Except Err Unit × List RemoteCall
  | _, [] => (.ok (), [])
  | k, ch :: rest =>
    match remote k with
    | .ok _ =>
      let r := runChunks remote indexName (k + 1) rest
      (r.1, .putVectors indexName ch :: r.2)
    | .error e =>
      (.error (.store (upsertErrMsg indexName e) "upsert_failed" (some e)),
       [.putVectors indexName ch])

/-- `S3Vector.upsert` (lines 236-276).  On success the loop falls through to
`return params.ids || []` (line 268).  An error escaping the loop (the inner
wrapper's throw) is caught again by the outer `catch` (lines 269-275) and
wrapped a second time into an `upsert_failed` `VectorStoreError`. -/
def upsert (remote : Nat → Except Err Unit) (indexName : String)
    (ids : Option (List String)) (meta : Option (List VectorMetadata))
    (vectors : List (List ℚ)) : Except Err (List String) × List RemoteCall :=
  let r := runChunks remote indexName 0 (upsertRequests BATCH_SIZE ids meta vectors)
  match r.1 with
  | .ok _ => (.ok (ids.getD []), r.2)
  | .error e =>
    (.error (.store (upsertErrMsg indexName e) "upsert_failed" (some e)), r.2)

/-! ### Query post-processing (s3-vector.ts lines 284-336) -/

/-- One element of the remote `QueryVectorsCommand` response's `vectors` array:
`{ key, distance?, metadata?, data? }` (lines 312-318). -/
structure Candidate where
  key : String
  distance : Option ℚ
  metadata : Option VectorMetadata
  data : Option (List ℚ)
deriving DecidableEq

/-- A `QueryResult` (types.ts lines 54-63). -/
structure QueryResult where
  id : String
  score : ℚ
  metadata : VectorMetadata
  vector : Option (List ℚ)
deriving DecidableEq

/-- The `.filter` predicate (lines 299-311): when `minScore` is given and the
candidate reports a distance, keep it iff `1 - distance >= minScore`;
otherwise keep it unconditionally. -/
def minScoreKeep (minScore : Option ℚ) (c : Candidate) : Bool :=
  match minScore, c.distance with
  | some s, some d => decide (s ≤ 1 - d)
  | _, _ => true

/-- The `.map` step (lines 312-328): score is `1 - distance` when a distance
was reported and `0` otherwise; metadata defaults to the empty object; the
vector is attached only when `includeVector` is set and the response carried
data for the candidate. -/
def toQueryResult (includeVector : Bool) (c : Candidate) : QueryResult :=
  { id := c.key
    score := match c.distance with | some d => 1 - d | none => 0
    metadata := c.metadata.getD []
    vector := if includeVector then c.data else none }

/-- The whole post-processing pipeline applied to the response's candidate
list (lines 298-328): filter, then map. -/
def processQueryResponse (minScore : Option ℚ) (includeVector : Bool)
    (cands : List Candidate) : List QueryResult :=
  (cands.filter (minScoreKeep minScore)).map (toQueryResult includeVector)

/-- Parameters of `S3Vector.query` that affect its observable behaviour
(types.ts lines 94-107); `includeVector` is an optional boolean whose absence
behaves as `false` under `params.includeVector && ...`. -/
structure QueryParams where
  indexName : String
  queryVector : List ℚ
  topK : Option Nat
  includeVector : Option Bool
  minScore : Option ℚ
deriving DecidableEq

/-- `S3Vector.query` (lines 284-336): `remote` is the outcome of the single
`QueryVectorsCommand` send; on success the response's `vectors` array defaults
to `[]` (line 298) and is post-processed; a failure is wrapped once into a
`query_failed` `VectorStoreError` (lines 329-335). -/
def query (remote : Except Err (Option (List Candidate))) (p : QueryParams) :
    Except Err (List QueryResult) :=
  match remote with
  | .ok vs =>
    .ok (processQueryResponse p.minScore (p.includeVector.getD false) (vs.getD []))
  | .error e =>
    .error (.store ("Failed to query index " ++ p.indexName ++ ": " ++ e.msg)
      "query_failed" (some e))

/-! ### updateVector (s3-vector.ts lines 416-449) -/

/-- Parameters of `S3Vector.updateVector` (types.ts lines 112-124), with the
nested `update` object flattened into its two optional fields. -/
structure UpdateParams where
  indexName : String
  id : String
  updateVector : Option (List ℚ)
  updateMetadata : Option VectorMetadata
deriving DecidableEq

/-- The message of the guard error thrown when no vector is supplied (line 422). -/
def updateRequiredMsg : String :=
  "Vector data is required for update operation in S3 Vectors"

/-- The guard `VectorStoreError` of lines 421-424: code
`update_requires_vector_data`, no details. -/
def updateRequiresVectorErr : Err :=
  .store updateRequiredMsg "update_requires_vector_data" none

/-- The message of the `update_vector_failed` wrapper (line 444). -/
def updateErrMsg (p : UpdateParams) (e : Err) : String :=
  "Failed to update vector " ++ p.id ++ " in index " ++ p.indexName ++ ": " ++ e.msg

/-- `S3Vector.updateVector` (lines 416-449).  `remote` is the outcome of the
`PutVectorsCommand` send, when one is issued.  If `params.update.vector` is
absent, the guard error is thrown inside the `try` block before any remote
call; the `catch` (lines 442-448) catches it like any other error and wraps
it into an `update_vector_failed` `VectorStoreError` with the guard error as
`details`.  Otherwise one `PutVectors` call with the single record of
lines 427-433 is issued, and a remote failure is wrapped the same way. -/
def updateVector (remote : Except Err Unit) (p : UpdateParams) :
    Except Err Unit × List RemoteCall :=
  match p.updateVector with
  | none =>
    (.error (.store (updateErrMsg p updateRequiresVectorErr) "update_vector_failed"
      (some updateRequiresVectorErr)), [])
  | some v =>
    let recs : List PutRecord := [{ key := p.id, data := v, metadata := p.updateMetadata }]
    match remote with
    | .ok _ => (.ok (), [.putVectors p.indexName recs])
    | .error e =>
      (.error (.store (updateErrMsg p e) "update_vector_failed" (some e)),
       [.putVectors p.indexName recs])

/-! ### Helper lemmas about the batching pipeline -/

theorem recordsFrom_append (ids : Option (List String)) (meta : Option (List VectorMetadata)) :
    ∀ (xs ys : List (List ℚ)) (b : Nat),
      recordsFrom ids meta b (xs ++ ys)
        = recordsFrom ids meta b xs ++ recordsFrom ids meta (b + xs.length) ys := by
  intro xs
  induction xs with
  | nil => intro ys b; simp [recordsFrom]
  | cons v tl ih =>
    intro ys b
    simp only [List.cons_append, recordsFrom, List.length_cons, List.append_eq]
    rw [ih ys (b + 1)]
    have h : b + 1 + tl.length = b + (tl.length + 1) := by omega
    rw [h]

theorem mapIdx_upsertRecord (ids : Option (List String)) (meta : Option (List VectorMetadata)) :
    ∀ (l : List (List ℚ)) (b : Nat),
      l.mapIdx (fun i v => upsertRecord ids meta (b + i) v) = recordsFrom ids meta b l := by
  intro l
  induction l with
  | nil => intro b; simp [recordsFrom]
  | cons v tl ih =>
    intro b
    rw [List.mapIdx_cons]
    simp only [recordsFrom]
    have hf : (fun i (w : List ℚ) => upsertRecord ids meta (b + (i + 1)) w)
        = fun i (w : List ℚ) => upsertRecord ids meta ((b + 1) + i) w := by
      funext i w
      have : b + (i + 1) = (b + 1) + i := by omega
      rw [this]
    rw [show (fun i => (fun i (w : List ℚ) => upsertRecord ids meta (b + i) w) (i + 1)) =
        (fun i (w : List ℚ) => upsertRecord ids meta (b + (i + 1)) w) from rfl, hf, ih (b + 1),
      Nat.add_zero]

theorem upsertBatch_eq (ids : Option (List String)) (meta : Option (List VectorMetadata))
    (vectors : List (List ℚ)) (c i : Nat) :
    upsertBatch ids meta vectors c i = recordsFrom ids meta i ((vectors.drop i).take c) :=
  mapIdx_upsertRecord ids meta _ i

theorem numBatches_zero (c : Nat) (hc : 0 < c) : numBatches c 0 = 0 := by
  unfold numBatches
  exact Nat.div_eq_of_lt (by omega)

theorem numBatches_succ (c n : Nat) (hc : 0 < c) (hn : 0 < n) :
    numBatches c n = numBatches c (n - c) + 1 := by
  unfold numBatches
  rcases Nat.le_total c n with h | h
  · have h1 : n + c - 1 = ((n - c) + c - 1) + c := by omega
    rw [h1, Nat.add_div_right _ hc]
  · have h0 : n - c = 0 := by omega
    have h2 : (0 + c - 1) / c = 0 := Nat.div_eq_of_lt (by omega)
    have h3 : n + c - 1 = (n - 1) + c := by omega
    rw [h0, h2, h3, Nat.add_div_right _ hc, Nat.div_eq_of_lt (by omega)]

theorem recordsFrom_take_drop (ids : Option (List String)) (meta : Option (List VectorMetadata))
    (c b : Nat) (l : List (List ℚ)) :
    recordsFrom ids meta b (l.take c) ++ recordsFrom ids meta (b + c) (l.drop c)
      = recordsFrom ids meta b l := by
  conv_rhs => rw [← List.take_append_drop c l]
  rw [recordsFrom_append]
  rcases Nat.le_total c l.length with h | h
  · have hl : (l.take c).length = c := by rw [List.length_take]; omega
    rw [hl]
  · have hd : l.drop c = [] := List.drop_eq_nil_of_le h
    rw [hd]
    simp [recordsFrom]

theorem flatten_upsertRequests_aux (ids : Option (List String))
    (meta : Option (List VectorMetadata)) (c : Nat) (hc : 0 < c) :
    ∀ (m : Nat) (l : List (List ℚ)) (b : Nat), l.length ≤ m →
      ((List.range (numBatches c l.length)).map
          (fun k => recordsFrom ids meta (b + c * k) ((l.drop (c * k)).take c))).flatten
        = recordsFrom ids meta b l := by
  intro m
  induction m with
  | zero =>
    intro l b hl
    have hnil : l = [] := List.length_eq_zero.mp (Nat.le_zero.mp hl)
    subst hnil
    simp [numBatches_zero c hc, recordsFrom]
  | succ m ih =>
    intro l b hl
    cases l with
    | nil => simp [numBatches_zero c hc, recordsFrom]
    | cons v tl =>
      rw [numBatches_succ c (v :: tl).length hc (by simp)]
      simp only [List.range_succ_eq_map, List.map_cons, List.flatten_cons, List.map_map]
      have hhead : recordsFrom ids meta (b + c * 0) (((v :: tl).drop (c * 0)).take c)
          = recordsFrom ids meta b ((v :: tl).take c) := by
        norm_num
      have hfun : ((fun k => recordsFrom ids meta (b + c * k) (((v :: tl).drop (c * k)).take c))
            ∘ Nat.succ)
          = fun k => recordsFrom ids meta ((b + c) + c * k)
              ((((v :: tl).drop c).drop (c * k)).take c) := by
        funext k
        simp only [Function.comp_apply, Nat.succ_eq_add_one]
        rw [List.drop_drop]
        rw [show b + c * (k + 1) = (b + c) + c * k by ring]
        rw [show c + c * k = c * (k + 1) by ring]
      rw [hhead, hfun]
      have hlen : ((v :: tl).drop c).length = (v :: tl).length - c := List.length_drop c _
      have hle : ((v :: tl).drop c).length ≤ m := by
        rw [hlen]
        simp only [List.length_cons] at hl ⊢
        omega
      have := ih ((v :: tl).drop c) (b + c) hle
      rw [hlen] at this
      rw [this]
      exact recordsFrom_take_drop ids meta c b (v :: tl)

theorem flatten_upsertRequests (ids : Option (List String))
    (meta : Option (List VectorMetadata)) (c : Nat) (hc : 0 < c)
    (vectors : List (List ℚ)) :
    (upsertRequests c ids meta vectors).flatten = recordsFrom ids meta 0 vectors := by
  unfold upsertRequests
  have hb : ∀ k, upsertBatch ids meta vectors c (c * k)
      = recordsFrom ids meta (0 + c * k) ((vectors.drop (c * k)).take c) := by
    intro k
    rw [upsertBatch_eq]
    norm_num
  rw [List.map_congr_left (fun k _ => hb k)]
  exact flatten_upsertRequests_aux ids meta c hc vectors.length vectors 0 (le_refl _)

theorem recordsFrom_data (ids : Option (List String)) (meta : Option (List VectorMetadata)) :
    ∀ (l : List (List ℚ)) (b : Nat), (recordsFrom ids meta b l).map PutRecord.data = l := by
  intro l
  induction l with
  | nil => intro b; simp [recordsFrom]
  | cons v tl ih => intro b; simp [recordsFrom, upsertRecord, ih (b + 1)]

theorem recordsFrom_key_none (meta : Option (List VectorMetadata)) :
    ∀ (l : List (List ℚ)) (b : Nat),
      (recordsFrom none meta b l).map PutRecord.key
        = (List.range l.length).map (fun i => "vector_" ++ toString (b + i)) := by
  intro l
  induction l with
  | nil => intro b; simp [recordsFrom]
  | cons v tl ih =>
    intro b
    simp only [recordsFrom, List.map_cons, List.length_cons, List.range_succ_eq_map,
      List.map_map]
    have hhead : (recordsFrom none meta (b + 1) tl).map PutRecord.key
        = (List.range tl.length).map (fun i => "vector_" ++ toString ((b + 1) + i)) := ih (b + 1)
    rw [hhead]
    have hk : PutRecord.key (upsertRecord none meta b v) = "vector_" ++ toString (b + 0) := by
      simp [upsertRecord, vectorKey]
    rw [hk]
    have hfun : ∀ i, "vector_" ++ toString ((b + 1) + i)
        = ((fun i => "vector_" ++ toString (b + i)) ∘ Nat.succ) i := by
      intro i
      simp only [Function.comp_apply, Nat.succ_eq_add_one]
      have : (b + 1) + i = b + (i + 1) := by omega
      rw [this]
    rw [List.map_congr_left (fun i _ => hfun i)]

theorem runChunks_all_ok (remote : Nat → Except Err Unit) (idx : String)
    (hr : ∀ j, remote j = .ok ()) :
    ∀ (chunks : List (List PutRecord)) (k : Nat),
      runChunks remote idx k chunks
        = (.ok (), chunks.map (RemoteCall.putVectors idx)) := by
  intro chunks
  induction chunks with
  | nil => intro k; rfl
  | cons ch rest ih =>
    intro k
    simp only [runChunks, hr k, ih (k + 1), List.map_cons]

theorem runChunks_first_fail (remote : Nat → Except Err Unit) (idx : String) (e : Err) :
    ∀ (chunks : List (List PutRecord)) (m k : Nat),
      (∀ j, j < m → remote (k + j) = .ok ()) → remote (k + m) = .error e →
      m < chunks.length →
      runChunks remote idx k chunks
        = (.error (.store (upsertErrMsg idx e) "upsert_failed" (some e)),
           (chunks.take (m + 1)).map (RemoteCall.putVectors idx)) := by
  intro chunks
  induction chunks with
  | nil =>
    intro m k h1 h2 h3
    simp at h3
  | cons ch rest ih =>
    intro m k h1 h2 h3
    cases m with
    | zero =>
      have hk : remote k = .error e := by
        have := h2
        rw [Nat.add_zero] at this
        exact this
      simp only [runChunks, hk, List.take_succ_cons, List.take_zero, List.map_cons,
        List.map_nil]
    | succ m =>
      have hk : remote k = .ok () := by
        have := h1 0 (by omega)
        rw [Nat.add_zero] at this
        exact this
      have h1m : ∀ j, j < m → remote ((k + 1) + j) = .ok () := by
        intro j hj
        have harg : (k + 1) + j = k + (j + 1) := by omega
        rw [harg]
        exact h1 (j + 1) (by omega)
      have h2m : remote ((k + 1) + m) = .error e := by
        have harg : (k + 1) + m = k + (m + 1) := by omega
        rw [harg]
        exact h2
      have h3m : m < rest.length := by
        simp only [List.length_cons] at h3
        omega
      simp only [runChunks, hk, ih m (k + 1) h1m h2m h3m, List.take_succ_cons, List.map_cons]

theorem upsertBatch_length_le (ids : Option (List String)) (meta : Option (List VectorMetadata))
    (vectors : List (List ℚ)) (c i : Nat) :
    (upsertBatch ids meta vectors c i).length ≤ c := by
  unfold upsertBatch
  rw [List.length_mapIdx, List.length_take]
  omega

theorem upsertRequests_length (c : Nat) (ids : Option (List String))
    (meta : Option (List VectorMetadata)) (vectors : List (List ℚ)) :
    (upsertRequests c ids meta vectors).length = numBatches c vectors.length := by
  unfold upsertRequests
  rw [List.length_map, List.length_range]

theorem upsert_ok_eq (idx : String) (ids : Option (List String))
    (meta : Option (List VectorMetadata)) (vectors : List (List ℚ)) :
    upsert (fun _ => .ok ()) idx ids meta vectors
      = (.ok (ids.getD []),
         (upsertRequests BATCH_SIZE ids meta vectors).map (RemoteCall.putVectors idx)) := by
  unfold upsert
  rw [runChunks_all_ok _ idx (fun j => rfl)]

theorem upsert_fail_eq (remote : Nat → Except Err Unit) (idx : String)
    (ids : Option (List String)) (meta : Option (List VectorMetadata))
    (vectors : List (List ℚ)) (k : Nat) (e : Err)
    (h1 : ∀ j, j < k → remote j = .ok ()) (h2 : remote k = .error e)
    (h3 : k < (upsertRequests BATCH_SIZE ids meta vectors).length) :
    upsert remote idx ids meta vectors
      = (.error (.store
            (upsertErrMsg idx (.store (upsertErrMsg idx e) "upsert_failed" (some e)))
            "upsert_failed"
            (some (.store (upsertErrMsg idx e) "upsert_failed" (some e)))),
         ((upsertRequests BATCH_SIZE ids meta vectors).take (k + 1)).map
           (RemoteCall.putVectors idx)) := by
  unfold upsert
  rw [runChunks_first_fail remote idx e _ k 0
    (fun j hj => by rw [Nat.zero_add]; exact h1 j hj)
    (by rw [Nat.zero_add]; exact h2) h3]

/-! ### Concrete sample inputs used by witnesses and counterexamples -/

/-- 25 one-dimensional embeddings, `[[0], [1], ..., [24]]`. -/
def sampleVectors : List (List ℚ) := (List.range 25).map (fun i => [(i : ℚ)])

/-- Three remote candidates: one close (distance 1/4), one with no reported
distance, one far (distance 3/4). -/
def sampleCandidates : List Candidate :=
  [⟨"a", some (1/4), none, none⟩, ⟨"b", none, none, none⟩, ⟨"c", some (3/4), none, none⟩]

/-- A client whose first send succeeds and whose later sends fail. -/
def failingRemote : Nat → Except Err Unit :=
  fun j => if j = 0 then .ok () else .error (.remote "boom")

/-- A client whose every send fails. -/
def alwaysFailRemote : Nat → Except Err Unit := fun _ => .error (.remote "boom")

def sampleQueryParams : QueryParams := ⟨"docs", [(1 : ℚ)], none, none, none⟩

def sampleUpdateParams : UpdateParams := ⟨"docs", "v1", some [(1 : ℚ)], none⟩

/-- A metadata-only update: no replacement embedding supplied. -/
def sampleMetadataOnly : UpdateParams :=
  ⟨"docs", "v1", none, some [("tag", MetaValue.str "x")]⟩

/-! ### Claim theorems -/

/-- C1 (code bug evaluation): a successful `upsert` of 25 embeddings with `ids`
omitted returns `[]` — the code's `return params.ids || []` drops the generated
ids — even though the keys actually submitted in the remote write requests are
exactly `vector_0 … vector_24`, which is what the claim says the call must
return. -/
theorem upsert_omitted_ids_returns_empty :
    (upsert (fun _ => .ok ()) "docs" none none sampleVectors).1 = .ok []
      ∧ (upsertRequests BATCH_SIZE none none sampleVectors).flatten.map PutRecord.key
          = (List.range 25).map (fun i => "vector_" ++ toString i)
      ∧ (List.range 25).map (fun i => "vector_" ++ toString i) ≠ ([] : List String) := by
  refine ⟨rfl, by decide, by decide⟩

/-- C4: an upsert of N > 10 embeddings issues exactly `⌈N / 10⌉` (that is,
`(N + 9) / 10`, at least 2) remote `PutVectors` calls, each carrying at most
10 records, and the concatenation of the chunks in issue order carries exactly
the input embeddings, in order, nothing dropped or duplicated. -/
theorem upsert_chunking (idx : String) (ids : Option (List String))
    (meta : Option (List VectorMetadata)) (vectors : List (List ℚ))
    (h : 10 < vectors.length) :
    (upsert (fun _ => .ok ()) idx ids meta vectors).2
        = (upsertRequests BATCH_SIZE ids meta vectors).map (RemoteCall.putVectors idx)
      ∧ (upsertRequests BATCH_SIZE ids meta vectors).length = (vectors.length + 9) / 10
      ∧ 2 ≤ (upsertRequests BATCH_SIZE ids meta vectors).length
      ∧ (∀ ch ∈ upsertRequests BATCH_SIZE ids meta vectors, ch.length ≤ 10)
      ∧ (upsertRequests BATCH_SIZE ids meta vectors).flatten.map PutRecord.data = vectors := by
  refine ⟨by rw [upsert_ok_eq], ?_, ?_, ?_, ?_⟩
  · rw [upsertRequests_length]
    unfold numBatches BATCH_SIZE
    congr 1
  · rw [upsertRequests_length]
    unfold numBatches BATCH_SIZE
    rw [Nat.le_div_iff_mul_le (by norm_num)]
    omega
  · intro ch hch
    obtain ⟨k, _, rfl⟩ := List.mem_map.mp hch
    exact upsertBatch_length_le ids meta vectors BATCH_SIZE (BATCH_SIZE * k)
  · rw [flatten_upsertRequests ids meta BATCH_SIZE (by norm_num [BATCH_SIZE]) vectors]
    exact recordsFrom_data ids meta vectors 0

/-- C4 witness: the theorem instantiated at 25 concrete embeddings (chunks of
sizes 10/10/5). -/
theorem upsert_chunking_witness :
    10 < sampleVectors.length
      ∧ ((upsert (fun _ => .ok ()) "docs" none none sampleVectors).2
            = (upsertRequests BATCH_SIZE none none sampleVectors).map
                (RemoteCall.putVectors "docs")
          ∧ (upsertRequests BATCH_SIZE none none sampleVectors).length
              = (sampleVectors.length + 9) / 10
          ∧ 2 ≤ (upsertRequests BATCH_SIZE none none sampleVectors).length
          ∧ (∀ ch ∈ upsertRequests BATCH_SIZE none none sampleVectors, ch.length ≤ 10)
          ∧ (upsertRequests BATCH_SIZE none none sampleVectors).flatten.map PutRecord.data
              = sampleVectors) :=
  ⟨by decide, upsert_chunking "docs" none none sampleVectors (by decide)⟩

/-- C5: with `ids` omitted, the key attached to the i-th embedding across the
issued remote write requests is `vector_i`, where `i` is the position in the
overall input sequence; the right-hand side does not mention the chunk size
`c`, so the generated keys are invariant under re-chunking. -/
theorem upsert_generated_keys (c : Nat) (hc : 0 < c)
    (meta : Option (List VectorMetadata)) (vectors : List (List ℚ)) :
    (upsertRequests c none meta vectors).flatten.map PutRecord.key
      = (List.range vectors.length).map (fun i => "vector_" ++ toString i) := by
  rw [flatten_upsertRequests none meta c hc vectors, recordsFrom_key_none meta vectors 0]
  exact List.map_congr_left (fun i _ => by rw [Nat.zero_add])

/-- C5 witness: the theorem instantiated at chunk size 3 and the 25 sample
embeddings. -/
theorem upsert_generated_keys_witness :
    0 < 3
      ∧ (upsertRequests 3 none none sampleVectors).flatten.map PutRecord.key
          = (List.range sampleVectors.length).map (fun i => "vector_" ++ toString i) :=
  ⟨by decide, upsert_generated_keys 3 (by decide) none sampleVectors⟩

/-- C7: chunks are issued sequentially; if the remote write for chunk `k` is
the first to fail, the issued calls are exactly the `PutVectors` requests for
chunks `0 … k` (none after `k`, and no `DeleteVectors` compensation), and the
call raises an `upsert_failed` error whose message names the index (via
`upsertErrMsg`). -/
theorem upsert_sequential_abort (remote : Nat → Except Err Unit) (idx : String)
    (ids : Option (List String)) (meta : Option (List VectorMetadata))
    (vectors : List (List ℚ)) (k : Nat) (e : Err)
    (h1 : ∀ j, j < k → remote j = .ok ()) (h2 : remote k = .error e)
    (h3 : k < (upsertRequests BATCH_SIZE ids meta vectors).length) :
    upsert remote idx ids meta vectors
        = (.error (.store
              (upsertErrMsg idx (.store (upsertErrMsg idx e) "upsert_failed" (some e)))
              "upsert_failed"
              (some (.store (upsertErrMsg idx e) "upsert_failed" (some e)))),
           ((upsertRequests BATCH_SIZE ids meta vectors).take (k + 1)).map
             (RemoteCall.putVectors idx))
      ∧ ∀ t ∈ (upsert remote idx ids meta vectors).2,
          ∃ recs, t = RemoteCall.putVectors idx recs := by
  have he := upsert_fail_eq remote idx ids meta vectors k e h1 h2 h3
  refine ⟨he, ?_⟩
  rw [he]
  intro t ht
  obtain ⟨recs, _, rfl⟩ := List.mem_map.mp ht
  exact ⟨recs, rfl⟩

/-- C7 witness: 25 embeddings, chunk 0 succeeds, chunk 1 fails; exactly the
first two `PutVectors` calls are issued and the call fails with
`upsert_failed`. -/
theorem upsert_sequential_abort_witness :
    upsert failingRemote "docs" none none sampleVectors
        = (.error (.store
              (upsertErrMsg "docs" (.store (upsertErrMsg "docs" (.remote "boom"))
                "upsert_failed" (some (.remote "boom"))))
              "upsert_failed"
              (some (.store (upsertErrMsg "docs" (.remote "boom")) "upsert_failed"
                (some (.remote "boom")))))
           ,
           ((upsertRequests BATCH_SIZE none none sampleVectors).take 2).map
             (RemoteCall.putVectors "docs"))
      ∧ ∀ t ∈ (upsert failingRemote "docs" none none sampleVectors).2,
          ∃ recs, t = RemoteCall.putVectors "docs" recs :=
  upsert_sequential_abort failingRemote "docs" none none sampleVectors 1 (.remote "boom")
    (fun j hj => by
      have h0 : j = 0 := by omega
      subst h0
      rfl)
    rfl (by decide)

/-- C6 counterexample: for a failing upsert chunk the caller's error carries as
`details` the inner `upsert_failed` wrapper produced by the inner catch — a
further-wrapped error — not the original remote failure `Err.remote "boom"`,
refuting the claim that the failure is caught exactly once with the original
remote failure attached verbatim. -/
theorem upsert_details_not_original :
    (upsert (fun _ => .error (.remote "boom")) "docs" none none [[(1 : ℚ)]]).1
        = .error (.store
            (upsertErrMsg "docs" (.store (upsertErrMsg "docs" (.remote "boom"))
              "upsert_failed" (some (.remote "boom"))))
            "upsert_failed"
            (some (.store (upsertErrMsg "docs" (.remote "boom")) "upsert_failed"
              (some (.remote "boom")))))
      ∧ Err.store (upsertErrMsg "docs" (.remote "boom")) "upsert_failed"
            (some (.remote "boom"))
          ≠ Err.remote "boom" :=
  ⟨rfl, by simp⟩

/-- C6 (amended): every remote-call failure is wrapped into a
`VectorStoreError` with the operation-scoped code; for `query` and
`updateVector` the failure is caught once and the original remote failure is
the `details` payload verbatim, but for a failing upsert chunk the failure is
caught twice (inner and outer catch), so the caller's `details` is the inner
`upsert_failed` wrapper and the original remote failure sits one level
deeper. -/
theorem error_wrapping_amended (e : Err) (p : QueryParams) (u : UpdateParams) (v : List ℚ)
    (remote : Nat → Except Err Unit) (idx : String) (ids : Option (List String))
    (meta : Option (List VectorMetadata)) (vectors : List (List ℚ)) (k : Nat)
    (hu : u.updateVector = some v)
    (h1 : ∀ j, j < k → remote j = .ok ()) (h2 : remote k = .error e)
    (h3 : k < (upsertRequests BATCH_SIZE ids meta vectors).length) :
    query (.error e) p
        = .error (.store ("Failed to query index " ++ p.indexName ++ ": " ++ e.msg)
            "query_failed" (some e))
      ∧ (updateVector (.error e) u).1
          = .error (.store (updateErrMsg u e) "update_vector_failed" (some e))
      ∧ (upsert remote idx ids meta vectors).1
          = .error (.store
              (upsertErrMsg idx (.store (upsertErrMsg idx e) "upsert_failed" (some e)))
              "upsert_failed"
              (some (.store (upsertErrMsg idx e) "upsert_failed" (some e)))) := by
  refine ⟨rfl, ?_, ?_⟩
  · unfold updateVector
    rw [hu]
  · rw [upsert_fail_eq remote idx ids meta vectors k e h1 h2 h3]

/-- C6 witness: the amended theorem instantiated at a concrete remote failure
for each of the three operations. -/
theorem error_wrapping_amended_witness :
    query (.error (.remote "boom")) sampleQueryParams
        = .error (.store
            ("Failed to query index " ++ sampleQueryParams.indexName ++ ": "
              ++ (Err.remote "boom").msg)
            "query_failed" (some (.remote "boom")))
      ∧ (updateVector (.error (.remote "boom")) sampleUpdateParams).1
          = .error (.store (updateErrMsg sampleUpdateParams (.remote "boom"))
              "update_vector_failed" (some (.remote "boom")))
      ∧ (upsert alwaysFailRemote "docs" none none [[(1 : ℚ)]]).1
          = .error (.store
              (upsertErrMsg "docs" (.store (upsertErrMsg "docs" (.remote "boom"))
                "upsert_failed" (some (.remote "boom"))))
              "upsert_failed"
              (some (.store (upsertErrMsg "docs" (.remote "boom")) "upsert_failed"
                (some (.remote "boom"))))) :=
  error_wrapping_amended (.remote "boom") sampleQueryParams sampleUpdateParams [(1 : ℚ)]
    alwaysFailRemote "docs" none none [[(1 : ℚ)]] 0 rfl
    (fun j hj => absurd hj (Nat.not_lt_zero j)) rfl (by decide)

/-- C2 counterexample: a metadata-only `updateVector` does raise locally with
zero remote calls, but because the guard throw sits inside the `try` block,
the error the caller receives has code `update_vector_failed` (the guard's
`update_requires_vector_data` error is only the `details` payload), refuting
the claim that the call raises an error with code
`update_requires_vector_data`. -/
theorem updateVector_guard_is_wrapped :
    (updateVector (.ok ()) ⟨"docs", "v1", none, some [("tag", MetaValue.str "x")]⟩).1
        = .error (.store
            (updateErrMsg ⟨"docs", "v1", none, some [("tag", MetaValue.str "x")]⟩
              updateRequiresVectorErr)
            "update_vector_failed" (some updateRequiresVectorErr))
      ∧ (updateVector (.ok ()) ⟨"docs", "v1", none, some [("tag", MetaValue.str "x")]⟩).2 = []
      ∧ "update_vector_failed" ≠ "update_requires_vector_data" :=
  ⟨rfl, rfl, by decide⟩

/-- C2 (amended): every metadata-only `updateVector` performs zero remote
calls and raises an `update_vector_failed` error whose `details` payload is
the locally constructed `update_requires_vector_data` error. -/
theorem updateVector_metadata_only (p : UpdateParams) (remote : Except Err Unit)
    (h : p.updateVector = none) :
    updateVector remote p
      = (.error (.store (updateErrMsg p updateRequiresVectorErr) "update_vector_failed"
          (some updateRequiresVectorErr)), []) := by
  unfold updateVector
  rw [h]

/-- C2 witness: the amended theorem instantiated at a concrete metadata-only
update. -/
theorem updateVector_metadata_only_witness :
    updateVector (.ok ()) sampleMetadataOnly
      = (.error (.store (updateErrMsg sampleMetadataOnly updateRequiresVectorErr)
          "update_vector_failed" (some updateRequiresVectorErr)), []) :=
  updateVector_metadata_only sampleMetadataOnly (.ok ()) rfl

/-- C3: with `minScore = s`, every result returned to the caller either has
score at least `s` or stems from a candidate that reported no distance (whose
score was not computed from a distance), and a candidate lacking a distance
value is never removed by the minScore filter. -/
theorem query_minScore (s : ℚ) (iv : Bool) (cands : List Candidate) :
    (∀ r ∈ processQueryResponse (some s) iv cands,
        s ≤ r.score ∨ ∃ c ∈ cands, c.distance = none ∧ r = toQueryResult iv c)
      ∧ (∀ c ∈ cands, c.distance = none →
          toQueryResult iv c ∈ processQueryResponse (some s) iv cands) := by
  constructor
  · intro r hr
    obtain ⟨c, hcf, rfl⟩ := List.mem_map.mp hr
    obtain ⟨hcm, hkeep⟩ := List.mem_filter.mp hcf
    rcases hcd : c.distance with _ | d
    · exact Or.inr ⟨c, hcm, hcd, rfl⟩
    · left
      have hdec : decide (s ≤ 1 - d) = true := by
        simpa [minScoreKeep, hcd] using hkeep
      have hle : s ≤ 1 - d := of_decide_eq_true hdec
      simpa [toQueryResult, hcd] using hle
  · intro c hcm hcd
    refine List.mem_map_of_mem _ (List.mem_filter.mpr ⟨hcm, ?_⟩)
    simp [minScoreKeep, hcd]

/-- C3 witness: with `minScore = 1/2`, the distance-less candidate `"b"` is
retained. -/
theorem query_minScore_witness :
    toQueryResult false ⟨"b", none, none, none⟩
      ∈ processQueryResponse (some (1 / 2)) false sampleCandidates :=
  (query_minScore (1 / 2) false sampleCandidates).2 ⟨"b", none, none, none⟩
    (by decide) rfl

/-- C8: every result returned by the query post-processing is the image of a
remote candidate, and when that candidate reported a distance `d` the result's
score equals exactly `1 - d`. -/
theorem query_score_eq (ms : Option ℚ) (iv : Bool) (cands : List Candidate)
    (r : QueryResult) (hr : r ∈ processQueryResponse ms iv cands) :
    ∃ c ∈ cands, r = toQueryResult iv c ∧ ∀ d, c.distance = some d → r.score = 1 - d := by
  obtain ⟨c, hcf, rfl⟩ := List.mem_map.mp hr
  refine ⟨c, List.mem_of_mem_filter hcf, rfl, ?_⟩
  intro d hd
  simp [toQueryResult, hd]

/-- C8 witness: the theorem instantiated at the result of candidate `"a"` with
distance 1/4. -/
theorem query_score_eq_witness :
    ∃ c ∈ sampleCandidates,
      toQueryResult false ⟨"a", some (1 / 4), none, none⟩ = toQueryResult false c
        ∧ ∀ d, c.distance = some d →
            (toQueryResult false ⟨"a", some (1 / 4), none, none⟩).score = 1 - d :=
  query_score_eq (some (1 / 2)) false sampleCandidates
    (toQueryResult false ⟨"a", some (1 / 4), none, none⟩)
    (List.mem_map_of_mem _ (List.mem_filter.mpr
      ⟨by simp [sampleCandidates], by norm_num [minScoreKeep]⟩))

/-- C9: the returned results are the filtered candidates mapped in place — a
sublist (order-preserving subsequence) of the full candidate list's images in
the remote's order; no re-sorting by score is performed. -/
theorem query_order (ms : Option ℚ) (iv : Bool) (cands : List Candidate) :
    processQueryResponse ms iv cands
        = (cands.filter (minScoreKeep ms)).map (toQueryResult iv)
      ∧ List.Sublist (processQueryResponse ms iv cands) (cands.map (toQueryResult iv)) :=
  ⟨rfl, (List.filter_sublist cands).map (toQueryResult iv)⟩

/-- C10: a candidate lacking a distance value is returned with score exactly 0,
even when `minScore` is strictly positive. -/
theorem query_no_distance (s : ℚ) (hs : 0 < s) (iv : Bool) (cands : List Candidate)
    (c : Candidate) (hc : c ∈ cands) (hd : c.distance = none) :
    toQueryResult iv c ∈ processQueryResponse (some s) iv cands
      ∧ (toQueryResult iv c).score = 0 := by
  constructor
  · exact List.mem_map_of_mem _ (List.mem_filter.mpr ⟨hc, by simp [minScoreKeep, hd]⟩)
  · simp [toQueryResult, hd]

/-- C10 witness: with `minScore = 1/2 > 0`, the distance-less candidate `"b"`
is returned with score 0. -/
theorem query_no_distance_witness :
    (0 : ℚ) < 1 / 2
      ∧ (toQueryResult false ⟨"b", none, none, none⟩
            ∈ processQueryResponse (some (1 / 2)) false sampleCandidates
          ∧ (toQueryResult false ⟨"b", none, none, none⟩).score = 0) :=
  ⟨by norm_num,
   query_no_distance (1 / 2) (by norm_num) false sampleCandidates
     ⟨"b", none, none, none⟩ (by decide) rfl⟩

end S3VectorSpec
